import Mathlib

/-!
Shallow embedding of the core conversion pipeline of
`doc-converter-oci-serverless` (package `pkg/converter`): the SSRF URL
guard (`ssrf_mock.go`), filename sanitization (`utils.go`), and the
fetch/extract/render/compose/write worker together with the batch
orchestrator (`converter.go`).

Modelling conventions:
* Go strings are Lean `String`s; the character-level helpers work on
  `List Char`. Go's `strings.ToLower` and `unicode.IsSpace` are modelled
  on the ASCII range (the only range the verified claims exercise).
* Network, DNS, HTML parsing by `goquery`, CSS selector matching by
  `cascadia`, YAML marshalling and the filesystem are external effects;
  they are modelled as an explicit environment (`Env`) of response
  functions, and HTTP responses deliver already-parsed documents
  (`HNode` trees) since the HTML parser itself is an external library.
* The per-URL goroutine is the pure function `runWorker`, which also
  returns the number of HTTP GET requests it issued; the orchestrator
  `Convert` folds the workers over the URL list (completion order only
  permutes the result stream and never changes the counters, which is
  all the claims about `Summary` depend on).
-/

namespace DocConv

/-! ### Character helpers (ASCII model of `strings`/`unicode`) -/

/-- ASCII model of Go `unicode.IsSpace` (the whitespace characters that
can occur in the claims' inputs: space, tab, newline, vertical tab,
form feed, carriage return). -/
def isSpaceChar (c : Char) : Bool :=
  c.toNat == 32 || c.toNat == 9 || c.toNat == 10 || c.toNat == 11 ||
  c.toNat == 12 || c.toNat == 13

/-- Go `strings.TrimSpace`, left side: drop leading whitespace. -/
def trimLeft (l : List Char) : List Char :=
  l.dropWhile isSpaceChar

/-- Go `strings.TrimSpace`, right side: drop trailing whitespace. -/
def trimRight (l : List Char) : List Char :=
  (trimLeft l.reverse).reverse

/-- Go `strings.TrimSpace` on a character list. -/
def trimSpace (l : List Char) : List Char :=
  trimRight (trimLeft l)

/-- Go `strings.TrimSpace` on a string. -/
def trimSpaceStr (s : String) : String :=
  String.mk (trimSpace s.data)

/-! ### `SanitizeFilename` (`pkg/converter/utils.go`) -/

/-- ASCII model of Go `strings.ToLower` on one character. -/
def lowerChar (c : Char) : Char :=
  if 65 ≤ c.toNat && c.toNat ≤ 90 then Char.ofNat (c.toNat + 32) else c

/-- Go `strings.ReplaceAll(s, " ", "_")` acts independently on each
character. -/
def spaceToUnderscore (c : Char) : Char :=
  if c.toNat == 32 then Char.ofNat 95 else c

/-- The character class `[a-z0-9_]` kept by the regular expression
`[^a-z0-9_]+` → `""` in `SanitizeFilename`. -/
def allowedChar (c : Char) : Bool :=
  (97 ≤ c.toNat && c.toNat ≤ 122) || (48 ≤ c.toNat && c.toNat ≤ 57) ||
  c.toNat == 95

/-- Character-list body of `SanitizeFilename`: lowercase, then replace
spaces by underscores, then strip everything outside `[a-z0-9_]`. -/
def sanitizeChars (l : List Char) : List Char :=
  ((l.map lowerChar).map spaceToUnderscore).filter allowedChar

/-- Model of `SanitizeFilename` from `pkg/converter/utils.go`. -/
def SanitizeFilename (s : String) : String :=
  String.mk (sanitizeChars s.data)

/-! ### IP classification (`net.IP` methods used by `isPublicURL`) -/

/-- A resolved IP address: either four IPv4 bytes or sixteen IPv6
bytes. -/
inductive IP where
  | v4 (a b c d : Nat)
  | v6 (bytes : List Nat)
deriving DecidableEq, Repr

/-- Go `net.IP.IsLoopback`: `127.0.0.0/8` or the IPv6 loopback `::1`. -/
def IP.isLoopback : IP → Bool
  | .v4 a _ _ _ => a == 127
  | .v6 b => b == [0, 0, 0, 0, 0, 0, 0, 0, 0, 0, 0, 0, 0, 0, 0, 1]

/-- Go `net.IP.IsPrivate`: `10.0.0.0/8`, `172.16.0.0/12`, `192.168.0.0/16`
for IPv4; `fc00::/7` for IPv6. -/
def IP.isPrivate : IP → Bool
  | .v4 a b _ _ =>
      a == 10 || (a == 172 && b &&& 0xf0 == 16) || (a == 192 && b == 168)
  | .v6 b => b.length == 16 && b.getD 0 0 &&& 0xfe == 0xfc

/-- Go `net.IP.IsLinkLocalUnicast`: `169.254.0.0/16` for IPv4; `fe80::/10`
for IPv6. -/
def IP.isLinkLocalUnicast : IP → Bool
  | .v4 a b _ _ => a == 169 && b == 254
  | .v6 b => b.length == 16 && b.getD 0 0 == 0xfe && b.getD 1 0 &&& 0xc0 == 0x80

/-- Go `net.IP.IsLinkLocalMulticast`: `224.0.0.0/24` for IPv4; `ff02::/16`
for IPv6. -/
def IP.isLinkLocalMulticast : IP → Bool
  | .v4 a b c _ => a == 224 && b == 0 && c == 0
  | .v6 b => b.length == 16 && b.getD 0 0 == 0xff && b.getD 1 0 &&& 0x0f == 0x02

/-- The per-address test of the loop in `isPublicURL`
(`pkg/converter/ssrf_mock.go`): an address vetoes the URL when it is
loopback, link-local multicast, link-local unicast, or private. -/
def IP.isNonPublic (ip : IP) : Bool :=
  ip.isLoopback || ip.isLinkLocalMulticast || ip.isLinkLocalUnicast ||
  ip.isPrivate

/-! ### Parsed HTML documents (`goquery` document/selection model) -/

/-- A parsed HTML node: an element with tag, attributes and children, or
a text node. This is the shape of the trees `goquery` exposes. -/
inductive HNode where
  | elem (tag : String) (attrs : List (String × String)) (children : List HNode)
  | text (s : String)

/-- First value of an attribute, as Go's `Selection.Attr`. -/
def getAttr (attrs : List (String × String)) (key : String) : Option String :=
  match attrs.find? (fun p => p.1 == key) with
  | some p => some p.2
  | none => none

mutual

/-- Text content of one node (`Selection.Text` on a single node):
concatenation of all text nodes of the subtree. -/
def nodeText : HNode → List Char
  | .text s => s.data
  | .elem _ _ cs => forestText cs

/-- Text content of a node list, in order. -/
def forestText : List HNode → List Char
  | [] => []
  | n :: ns => nodeText n ++ forestText ns

end

mutual

/-- All descendant elements of a node (the node included) satisfying a
tag/attribute predicate, in document (pre-)order: the traversal
`goquery`'s `Find` performs. -/
def nodeFindP (p : String → List (String × String) → Bool) : HNode → List HNode
  | .text _ => []
  | .elem t a cs =>
      (if p t a then [HNode.elem t a cs] else []) ++ forestFindP p cs

/-- Lift of `nodeFindP` over a node list, in order. -/
def forestFindP (p : String → List (String × String) → Bool) :
    List HNode → List HNode
  | [] => []
  | n :: ns => nodeFindP p n ++ forestFindP p ns

end

/-- Model of `doc.Find("title").Text()`: concatenated text of all title elements
of the document. -/
def titleTextChars (doc : HNode) : List Char :=
  forestText (nodeFindP (fun t _ => t == "title") doc)

/-! ### Newline collapsing (`regexp \n\n+ → "\n\n"`) -/

/-- What a terminated maximal run of `k` consecutive newlines becomes
under the replacement `\n\n+` → `"\n\n"`: a single newline is left
alone (the pattern needs at least two), every longer run becomes
exactly two newlines. -/
def emitNl : Nat → List Char
  | 0 => []
  | 1 => ['\n']
  | _ + 2 => ['\n', '\n']

/-- Go `regexp.MustCompile("\n\n+").ReplaceAllString(s, "\n\n")` as a
single scan: `k` counts the newline run currently in progress, and the
run is emitted through `emitNl` when it ends (at a non-newline
character or at the end of the string). -/
def collapseAux (k : Nat) : List Char → List Char
  | [] => emitNl k
  | c :: rest =>
    if c = '\n' then collapseAux (k + 1) rest
    else emitNl k ++ c :: collapseAux 0 rest

/-- The newline-collapsing post-processing step of `htmlToMarkdown`. -/
def collapseNewlines (l : List Char) : List Char :=
  collapseAux 0 l

/-- Does the list start with three newlines? -/
def tripleNl : List Char → Bool
  | a :: b :: c :: _ => a = '\n' && b = '\n' && c = '\n'
  | _ => false

/-- No three consecutive newline characters occur anywhere. -/
def noTripleNewline : List Char → Bool
  | [] => true
  | c :: rest => !tripleNl (c :: rest) && noTripleNewline rest

/-! ### `getSanitizedTitle` and `getMetadata` (`converter.go`) -/

/-- Go `strings.Split` with a one-character separator. -/
def splitChar (sep : Char) : List Char → List (List Char)
  | [] => [[]]
  | c :: rest =>
    if c = sep then [] :: splitChar sep rest
    else
      match splitChar sep rest with
      | [] => [[c]]
      | p :: ps => (c :: p) :: ps

/-- Model of `getSanitizedTitle` from `converter.go`: trimmed document title, or
the last (else second-to-last) `/`-separated segment of the URL, or
`untitled`; sanitized. -/
def getSanitizedTitle (doc : HNode) (fallbackURL : String) : String :=
  let title := trimSpace (titleTextChars doc)
  let title :=
    if title = [] then
      let parts := splitChar '/' fallbackURL.data
      let t := if parts.length > 0 then parts.getLastD [] else []
      let t :=
        if t = [] && parts.length > 1 then parts.getD (parts.length - 2) []
        else t
      if t = [] then "untitled".data else t
    else title
  String.mk (sanitizeChars title)

/-- Insert or overwrite a key in an association list: the Go map
assignment `m[k] = v` restricted to the string-valued metadata map. -/
def setKey (m : List (String × String)) (k v : String) :
    List (String × String) :=
  match m with
  | [] => [(k, v)]
  | (k0, v0) :: rest => if k0 = k then (k, v) :: rest else (k0, v0) :: setKey rest k v

/-- The `content` attributes, in document order, of the elements matched
by `meta[name=<key>]` that carry a `content` attribute. -/
def metaContents (doc : HNode) (key : String) : List String :=
  (nodeFindP (fun t a => t == "meta" && getAttr a "name" == some key) doc).filterMap
    fun n =>
      match n with
      | .elem _ a _ => getAttr a "content"
      | .text _ => none

/-- Model of `getMetadata` from `converter.go`: `source` always; `title` when the
trimmed title text is non-empty; `description`/`keywords` set once per
matching `meta` element carrying a `content` attribute (last wins). -/
def getMetadata (doc : HNode) (url : String) : List (String × String) :=
  let m : List (String × String) := [("source", url)]
  let title := String.mk (trimSpace (titleTextChars doc))
  let m := if title ≠ "" then setKey m "title" title else m
  let m := (metaContents doc "description").foldl
    (fun m d => setKey m "description" d) m
  let m := (metaContents doc "keywords").foldl
    (fun m k => setKey m "keywords" k) m
  m

/-! ### `htmlToMarkdown` (`converter.go`) -/

/-- The tag set of the `Find("h1, h2, h3, h4, h5, h6, p, a")` query. -/
def mdTags : List String := ["h1", "h2", "h3", "h4", "h5", "h6", "p", "a"]

/-- The body of the `Each` callback in `htmlToMarkdown`: what one
matched element contributes to the markdown builder. -/
def mdOfNode : HNode → List Char
  | .text _ => []
  | .elem tag attrs children =>
    let text := trimSpace (forestText children)
    if text = [] then []
    else
      match tag with
      | "h1" => "# ".data ++ text ++ "\n\n".data
      | "h2" => "## ".data ++ text ++ "\n\n".data
      | "h3" => "### ".data ++ text ++ "\n\n".data
      | "h4" => "#### ".data ++ text ++ "\n\n".data
      | "h5" => "##### ".data ++ text ++ "\n\n".data
      | "h6" => "###### ".data ++ text ++ "\n\n".data
      | "p" => text ++ "\n\n".data
      | "a" =>
        match getAttr attrs "href" with
        | some href => "[".data ++ text ++ "](".data ++ href.data ++ ")".data
        | none => text
      | _ => []

/-- Model of `htmlToMarkdown` from `converter.go`, taking the already-parsed
fragment (the children of the `<body>` element the HTML parser wraps
the fragment string in): render the matched `h1..h6/p/a` elements in
document order, fall back to the flattened trimmed text when nothing
was rendered, collapse newline runs, trim. -/
def htmlToMarkdown (frag : List HNode) : String :=
  let matched := forestFindP (fun t _ => mdTags.contains t) frag
  let builder := (matched.map mdOfNode).flatten
  let builder := if builder = [] then trimSpace (forestText frag) else builder
  String.mk (trimSpace (collapseNewlines builder))

/-! ### The pipeline (`Convert`, `processURL`, `isPublicURL`) -/

/-- Outcome of one HTTP GET: a transport error, or a response with a
status code and a body. The body is the parsed document (`goquery`
parses the size-capped body stream); `Except.error` stands for a
read/parse failure, which is also how exceeding the 5 MiB
`MaxBytesReader` cap surfaces. -/
inductive FetchResp where
  | netError (msg : String)
  | response (status : Nat) (body : Except String HNode)

/-- The external world one run interacts with: URL parsing
(`url.Parse(...).Hostname()`), DNS (`net.LookupIP`), the HTTP client
(`fetch u i` is the i-th GET the worker for `u` issues, `0` = content
fetch, `1` = metadata fetch — the two requests are independent and may
be answered differently), CSS selector matching (`cascadia`, via
`doc.Find(selector)`), `yaml.Marshal`, `os.WriteFile`, and the clock. -/
structure Env where
  parseHost : String → Except String String
  lookupIP : String → Except String (List IP)
  fetch : String → Nat → FetchResp
  select : HNode → String → List HNode
  yamlMarshal : List (String × String) → Except String String
  writeFile : String → String → Except String Unit
  now : String
  elapsed : String
  downloadID : String

/-- Model of `Result` from `converter.go` (field `Content` as a string). -/
structure Result where
  url : String
  fileName : String := ""
  content : String := ""
  error : String := ""
  isSuccess : Bool
deriving DecidableEq, Repr

/-- Model of `Summary` from `converter.go`. -/
structure Summary where
  totalURLs : Nat
  successful : Nat
  failed : Nat
  failedURLs : List String
  processingTime : String
  downloadID : String
deriving DecidableEq, Repr

/-- A single quote character, used by the Go format verb pair in the
selector-miss error message. -/
def sq : String := String.singleton (Char.ofNat 39)

/-- Model of `isPublicURL` from `pkg/converter/ssrf_mock.go`: parse the URL,
resolve the hostname, and report non-public as soon as any resolved
address is loopback, link-local, or private. -/
def isPublicURL (env : Env) (urlStr : String) : Except String Bool :=
  match env.parseHost urlStr with
  | .error e => .error e
  | .ok host =>
    match env.lookupIP host with
    | .error e => .error e
    | .ok ips => .ok (!ips.any IP.isNonPublic)

/-- The children of the first matched element: `Selection.Html()`
returns the inner HTML of the first element of the selection (its
serialization; the renderer re-parses it, so the model keeps the node
list). -/
def innerNodes : HNode → List HNode
  | .elem _ _ cs => cs
  | .text t => [HNode.text t]

/-- Model of `processURL` from `converter.go`: content fetch, status check,
size-capped parse, selector match; each failure is a descriptive
error. -/
def processURL (env : Env) (urlStr selector : String) :
    Except String (List HNode) :=
  match env.fetch urlStr 0 with
  | .netError m => .error ("failed to fetch URL " ++ urlStr ++ ": " ++ m)
  | .response status body =>
    if status ≠ 200 then
      .error ("failed to fetch URL " ++ urlStr ++ ": HTTP status " ++
        toString status)
    else
      match body with
      | .error m => .error ("failed to read HTML for " ++ urlStr ++ ": " ++ m)
      | .ok doc =>
        match env.select doc selector with
        | [] => .error ("could not find content in " ++ urlStr ++
            " using selector " ++ sq ++ selector ++ sq)
        | n :: _ => .ok (innerNodes n)

/-- A failure `Result` (Go zero values for the remaining fields). -/
def failResult (u msg : String) : Result :=
  { url := u, error := msg, isSuccess := false }

/-- The metadata map marshalled for a successful conversion:
`getMetadata` plus `retrieved_at`. -/
def metadataFor (env : Env) (doc : HNode) (u : String) :
    List (String × String) :=
  setKey (getMetadata doc u) "retrieved_at" env.now

/-- One worker goroutine of `Convert` (`converter.go`), as a pure
function of the environment: returns the emitted `Result` and the
number of HTTP GET requests the worker issued. Note that the metadata
fetch binds the response status but performs no status check, exactly
as the source does. -/
def runWorker (env : Env) (selector u : String) : Result × Nat :=
  match isPublicURL env u with
  | .error e => (failResult u ("URL validation failed: " ++ e), 0)
  | .ok false =>
      (failResult u "SSRF attack suspected: URL resolves to a non-public IP", 0)
  | .ok true =>
    match processURL env u selector with
    | .error e => (failResult u e, 1)
    | .ok content =>
      match env.fetch u 1 with
      | .netError m =>
          (failResult u ("failed to fetch URL for metadata: " ++ m), 2)
      | .response _ body =>
        match body with
        | .error m =>
            (failResult u ("failed to parse HTML for metadata: " ++ m), 2)
        | .ok doc =>
          let pageMetadata := metadataFor env doc u
          let markdownContent := htmlToMarkdown content
          match env.yamlMarshal pageMetadata with
          | .error e => (failResult u ("failed to marshal YAML: " ++ e), 2)
          | .ok yamlStr =>
            let finalContent := "---\n" ++ yamlStr ++ "---\n\n" ++
              markdownContent
            let filename := getSanitizedTitle doc u ++ ".md"
            match env.writeFile filename finalContent with
            | .error e => (failResult u ("failed to write file: " ++ e), 2)
            | .ok _ =>
                ({ url := u, fileName := filename, content := finalContent,
                   isSuccess := true }, 2)

/-- One step of the orchestrator's aggregation: the counter/`failedURLs`
updates each worker performs under the mutex, together with the emitted
result. Accumulator: (successCount, errorCount, failedURLs, results). -/
def convertStep (env : Env) (selector : String)
    (acc : Nat × Nat × List String × List Result) (u : String) :
    Nat × Nat × List String × List Result :=
  let r := (runWorker env selector u).1
  if r.isSuccess then (acc.1 + 1, acc.2.1, acc.2.2.1, acc.2.2.2 ++ [r])
  else (acc.1, acc.2.1 + 1, acc.2.2.1 ++ [u], acc.2.2.2 ++ [r])

/-- Model of `Convert` from `converter.go`: run one worker per URL, aggregate the
counters, and build the `Summary` after all workers are done. Workers
run concurrently in the source; completion order only permutes the
result stream and the `failedURLs` list, so the fold models every
schedule up to that permutation. -/
def Convert (env : Env) (urls : List String) (selector : String) :
    List Result × Summary :=
  let acc := urls.foldl (convertStep env selector) (0, 0, [], [])
  (acc.2.2.2,
   { totalURLs := urls.length
     successful := acc.1
     failed := acc.2.1
     failedURLs := acc.2.2.1
     processingTime := env.elapsed
     downloadID := env.downloadID })

/-! ### Lemmas about `SanitizeFilename` -/

theorem allowedChar_of_mem_sanitizeChars {l : List Char} {c : Char}
    (h : c ∈ sanitizeChars l) : allowedChar c = true :=
  List.of_mem_filter h

theorem lowerChar_of_allowed {c : Char} (h : allowedChar c = true) :
    lowerChar c = c := by
  simp only [allowedChar, Bool.or_eq_true, Bool.and_eq_true,
    decide_eq_true_eq, beq_iff_eq] at h
  unfold lowerChar
  split
  · next hcond =>
      simp only [Bool.and_eq_true, decide_eq_true_eq] at hcond
      omega
  · rfl

theorem spaceToUnderscore_of_allowed {c : Char} (h : allowedChar c = true) :
    spaceToUnderscore c = c := by
  simp only [allowedChar, Bool.or_eq_true, Bool.and_eq_true,
    decide_eq_true_eq, beq_iff_eq] at h
  unfold spaceToUnderscore
  split
  · next hcond =>
      simp only [beq_iff_eq] at hcond
      omega
  · rfl

theorem sanitizeChars_of_allowed :
    ∀ {l : List Char}, (∀ c ∈ l, allowedChar c = true) → sanitizeChars l = l := by
  intro l
  induction l with
  | nil => intro _; rfl
  | cons c t ih =>
      intro h
      have hc := h c (by simp)
      have ht : ∀ x ∈ t, allowedChar x = true := fun x hx => h x (by simp [hx])
      show (((c :: t).map lowerChar).map spaceToUnderscore).filter allowedChar
        = c :: t
      simp only [List.map_cons]
      rw [lowerChar_of_allowed hc, spaceToUnderscore_of_allowed hc,
        List.filter_cons_of_pos hc]
      exact congrArg (c :: ·) (ih ht)

/-- C9: `SanitizeFilename` is idempotent, and its output only contains
characters in `[a-z0-9_]`. -/
theorem C9_SanitizeFilename_idempotent (s : String) :
    SanitizeFilename (SanitizeFilename s) = SanitizeFilename s ∧
    ∀ c ∈ (SanitizeFilename s).data, allowedChar c = true := by
  constructor
  · show String.mk (sanitizeChars (String.mk (sanitizeChars s.data)).data) = _
    rw [show (String.mk (sanitizeChars s.data)).data = sanitizeChars s.data from rfl,
      sanitizeChars_of_allowed (fun c hc => allowedChar_of_mem_sanitizeChars hc)]
    rfl
  · intro c hc
    exact allowedChar_of_mem_sanitizeChars hc

/-- C9 witness: the theorem applied to the concrete input `"My File!"`,
discharging the membership hypothesis of its second conjunct at the
character `m`. -/
theorem C9_witness : allowedChar (Char.ofNat 109) = true :=
  (C9_SanitizeFilename_idempotent "My File!").2 (Char.ofNat 109) (by decide)

/-! ### C10: the `untitled` fallback versus unsanitizable titles -/

/-- A document whose title is `!!!`: non-empty, but consisting only of
characters outside `[a-z0-9_ ]`. -/
def c10Doc : HNode :=
  HNode.elem "html" []
    [HNode.elem "head" [] [HNode.elem "title" [] [HNode.text "!!!"]]]

/-- C10: the `untitled` fallback is keyed on the raw title being empty
before sanitization: the non-empty title `!!!` sanitizes to the empty
string, so the derived filename is `.md`, not `untitled.md`. -/
theorem C10_unsanitizable_title_yields_dot_md :
    trimSpace (titleTextChars c10Doc) ≠ [] ∧
    getSanitizedTitle c10Doc "https://example.com/page" = "" ∧
    getSanitizedTitle c10Doc "https://example.com/page" ++ ".md" = ".md" ∧
    getSanitizedTitle c10Doc "https://example.com/page" ++ ".md" ≠ "untitled.md" := by
  refine ⟨by decide, by decide, by decide, by decide⟩

/-! ### C4: markdown rendering of the heading/paragraph/anchor fragment -/

/-- The parsed form of the fragment
`<h1>Title</h1><p>Body <a href="https://x">link</a></p>`. -/
def c4Frag : List HNode :=
  [HNode.elem "h1" [] [HNode.text "Title"],
   HNode.elem "p" []
     [HNode.text "Body ",
      HNode.elem "a" [("href", "https://x")] [HNode.text "link"]]]

/-- C4 counterexample: the rendering is neither the claimed string
`# Title\n\nBody link` nor the string with the anchor inline at the
position it occupied in the paragraph. -/
theorem C4_counterexample :
    htmlToMarkdown c4Frag ≠ "# Title\n\nBody link" ∧
    htmlToMarkdown c4Frag ≠ "# Title\n\nBody [link](https://x)" := by
  refine ⟨by decide, by decide⟩

/-- C4 (amended): the fragment renders to
`# Title\n\nBody link\n\n[link](https://x)`: the anchor's text is
flattened into the paragraph text, and the anchor is additionally
rendered as `[link](https://x)` after the paragraph block, not inline. -/
theorem C4_render_of_fragment :
    htmlToMarkdown c4Frag = "# Title\n\nBody link\n\n[link](https://x)" := by
  decide

/-! ### C5: fallback filename derivation -/

/-- A well-formed document with no `<title>` element. -/
def noTitleDoc : HNode :=
  HNode.elem "html" [] [HNode.elem "head" [] [], HNode.elem "body" [] []]

/-- C5 counterexample: with no title and URL `https://example.com/`, the
derived filename is not `untitled.md` — the code falls back to the
second-to-last `/`-separated segment, which is the hostname. -/
theorem C5_counterexample :
    getSanitizedTitle noTitleDoc "https://example.com/" ++ ".md" ≠
      "untitled.md" := by
  decide

/-- C5 (amended): with no title, URL `https://example.com/docs/` yields
`docs.md`; URL `https://example.com/` yields `examplecom.md` (the
sanitized hostname segment), and the literal `untitled` fallback is
reached only when both the last and the second-to-last segment are
empty, as for the empty URL. -/
theorem C5_fallback_filenames :
    getSanitizedTitle noTitleDoc "https://example.com/docs/" ++ ".md" =
      "docs.md" ∧
    getSanitizedTitle noTitleDoc "https://example.com/" ++ ".md" =
      "examplecom.md" ∧
    getSanitizedTitle noTitleDoc "" ++ ".md" = "untitled.md" := by
  refine ⟨by decide, by decide, by decide⟩

/-! ### C1: the summary counting invariant -/

theorem foldl_convertStep_invariant (env : Env) (selector : String) :
    ∀ (urls : List String) (s e : Nat) (f : List String) (rs : List Result),
      f.length = e →
      (urls.foldl (convertStep env selector) (s, e, f, rs)).1 +
        (urls.foldl (convertStep env selector) (s, e, f, rs)).2.1 =
          s + e + urls.length ∧
      (urls.foldl (convertStep env selector) (s, e, f, rs)).2.2.1.length =
        (urls.foldl (convertStep env selector) (s, e, f, rs)).2.1 := by
  intro urls
  induction urls with
  | nil =>
      intro s e f rs hf
      simpa using hf
  | cons u t ih =>
      intro s e f rs hf
      simp only [List.foldl_cons, List.length_cons]
      by_cases hsucc : ((runWorker env selector u).1).isSuccess
      · have hstep : convertStep env selector (s, e, f, rs) u =
            (s + 1, e, f, rs ++ [(runWorker env selector u).1]) := by
          simp [convertStep, hsucc]
        rw [hstep]
        have h := ih (s + 1) e f (rs ++ [(runWorker env selector u).1]) hf
        exact ⟨by omega, h.2⟩
      · have hstep : convertStep env selector (s, e, f, rs) u =
            (s, e + 1, f ++ [u], rs ++ [(runWorker env selector u).1]) := by
          simp [convertStep, hsucc]
        rw [hstep]
        have hf' : (f ++ [u]).length = e + 1 := by simp [hf]
        have h := ih s (e + 1) (f ++ [u]) (rs ++ [(runWorker env selector u).1]) hf'
        exact ⟨by omega, h.2⟩

/-- C1: for every run of `Convert`, the produced `Summary` satisfies
`successful + failed = totalURLs` and `failedURLs.length = failed`, and
`totalURLs` is the length of the input URL list — for every environment
(in particular also when every URL fails). -/
theorem C1_summary_invariant (env : Env) (urls : List String)
    (selector : String) :
    (Convert env urls selector).2.successful +
        (Convert env urls selector).2.failed =
      (Convert env urls selector).2.totalURLs ∧
    (Convert env urls selector).2.failedURLs.length =
      (Convert env urls selector).2.failed ∧
    (Convert env urls selector).2.totalURLs = urls.length := by
  have h := foldl_convertStep_invariant env selector urls 0 0 [] [] rfl
  unfold Convert
  exact ⟨by simpa using h.1, h.2, rfl⟩

/-! ### C2: the SSRF guard blocks and short-circuits -/

/-- C2: whenever the URL parses and its hostname resolves to a list of
addresses at least one of which is loopback, link-local (unicast or
multicast) or private, the worker emits a failure `Result` carrying the
SSRF-suspected error message and issues zero HTTP GET requests. -/
theorem C2_ssrf_blocked (env : Env) (selector u host : String)
    (ips : List IP) (ip : IP)
    (hparse : env.parseHost u = .ok host)
    (hlookup : env.lookupIP host = .ok ips)
    (hmem : ip ∈ ips) (hbad : ip.isNonPublic = true) :
    (runWorker env selector u).1.isSuccess = false ∧
    (runWorker env selector u).1.error =
      "SSRF attack suspected: URL resolves to a non-public IP" ∧
    (runWorker env selector u).2 = 0 := by
  have hany : ips.any IP.isNonPublic = true :=
    List.any_eq_true.mpr ⟨ip, hmem, hbad⟩
  have hpub : isPublicURL env u = .ok false := by
    simp only [isPublicURL, hparse, hlookup, hany, Bool.not_true]
  unfold runWorker
  rw [hpub]
  exact ⟨rfl, rfl, rfl⟩

/-- Environment for the C2 witness: the hostname resolves to one public
and one private address. -/
def envC2 : Env where
  parseHost := fun _ => .ok "internal.example"
  lookupIP := fun _ => .ok [IP.v4 8 8 8 8, IP.v4 10 0 0 1]
  fetch := fun _ _ => .netError "unreachable"
  select := fun _ _ => []
  yamlMarshal := fun _ => .ok ""
  writeFile := fun _ _ => .ok ()
  now := "2026-01-01T00:00:00Z"
  elapsed := "1s"
  downloadID := "job-1"

/-- C2 witness: the theorem applied at a concrete environment in which
only one of the two resolved addresses is private. -/
theorem C2_witness :
    (runWorker envC2 "main" "http://internal.example/x").1.isSuccess = false ∧
    (runWorker envC2 "main" "http://internal.example/x").1.error =
      "SSRF attack suspected: URL resolves to a non-public IP" ∧
    (runWorker envC2 "main" "http://internal.example/x").2 = 0 :=
  C2_ssrf_blocked envC2 "main" "http://internal.example/x" "internal.example"
    [IP.v4 8 8 8 8, IP.v4 10 0 0 1] (IP.v4 10 0 0 1) rfl rfl
    (by decide) (by decide)

/-! ### C3: status-code enforcement on the two fetches -/

/-- The status code of a fetch outcome, when it is a response. -/
def respStatus : FetchResp → Option Nat
  | .netError _ => none
  | .response s _ => some s

/-- A parseable document with a paragraph, used by the C3 environments. -/
def c3Doc : HNode :=
  HNode.elem "html" []
    [HNode.elem "body" [] [HNode.elem "p" [] [HNode.text "hi"]]]

/-- Environment for the C3 counterexample: the content fetch returns
status 200, the metadata fetch returns status 404 with a parseable
body; everything else succeeds. -/
def envC3 : Env where
  parseHost := fun _ => .ok "example.com"
  lookupIP := fun _ => .ok [IP.v4 93 184 216 34]
  fetch := fun _ i =>
    if i == 0 then .response 200 (.ok c3Doc) else .response 404 (.ok c3Doc)
  select := fun doc _ => nodeFindP (fun t _ => t == "p") doc
  yamlMarshal := fun _ => .ok "source: http://example.com/a\n"
  writeFile := fun _ _ => .ok ()
  now := "2026-01-01T00:00:00Z"
  elapsed := "1s"
  downloadID := "job-2"

/-- C3 counterexample: the metadata fetch answers with HTTP status 404,
yet the worker still emits a success `Result` — the second fetch's
status code is never checked, so a non-200 response on it does not
yield a failure `Result`. -/
theorem C3_counterexample :
    respStatus (envC3.fetch "http://example.com/a" 1) = some 404 ∧
    (runWorker envC3 "p" "http://example.com/a").1.isSuccess = true := by
  refine ⟨by decide, by decide⟩

/-- C3 (amended): only the content fetch enforces the status check:
when it answers with a non-200 status, `processURL` fails with an error
naming the URL and the status code, and the worker emits a failure
`Result` carrying that error. The metadata fetch performs no status
check. -/
theorem C3_content_fetch_status (env : Env) (selector u : String)
    (status : Nat) (body : Except String HNode)
    (hpub : isPublicURL env u = .ok true)
    (hfetch : env.fetch u 0 = .response status body)
    (hstatus : status ≠ 200) :
    processURL env u selector =
      .error ("failed to fetch URL " ++ u ++ ": HTTP status " ++
        toString status) ∧
    (runWorker env selector u).1.isSuccess = false ∧
    (runWorker env selector u).1.error =
      "failed to fetch URL " ++ u ++ ": HTTP status " ++ toString status := by
  have hp : processURL env u selector =
      .error ("failed to fetch URL " ++ u ++ ": HTTP status " ++
        toString status) := by
    simp only [processURL, hfetch]
    simp [hstatus]
  refine ⟨hp, ?_, ?_⟩ <;> (unfold runWorker; rw [hpub, hp]) <;> rfl

/-- Environment for the C3 witness: the content fetch answers 404. -/
def envC3w : Env where
  parseHost := fun _ => .ok "example.com"
  lookupIP := fun _ => .ok [IP.v4 93 184 216 34]
  fetch := fun _ _ => .response 404 (.ok c3Doc)
  select := fun doc _ => nodeFindP (fun t _ => t == "p") doc
  yamlMarshal := fun _ => .ok ""
  writeFile := fun _ _ => .ok ()
  now := "2026-01-01T00:00:00Z"
  elapsed := "1s"
  downloadID := "job-3"

/-- C3 witness: the amended theorem applied at a concrete environment
whose content fetch answers with status 404. -/
theorem C3_witness :
    processURL envC3w "http://example.com/a" "p" =
      .error ("failed to fetch URL " ++ "http://example.com/a" ++
        ": HTTP status " ++ toString 404) ∧
    (runWorker envC3w "p" "http://example.com/a").1.isSuccess = false ∧
    (runWorker envC3w "p" "http://example.com/a").1.error =
      "failed to fetch URL " ++ "http://example.com/a" ++
        ": HTTP status " ++ toString 404 :=
  C3_content_fetch_status envC3w "p" "http://example.com/a" 404 (.ok c3Doc)
    rfl rfl (by decide)

/-! ### C6: selector misses are hard failures naming URL and selector -/

/-- C6: when the content fetch succeeds with status 200 and a parseable
document in which the selector matches zero elements, `processURL`
returns the error naming both the URL and the selector text (quoted),
and the worker emits a failure `Result` carrying exactly that error
after its single fetch — no fallback extraction happens. -/
theorem C6_selector_miss (env : Env) (selector u : String) (doc : HNode)
    (hpub : isPublicURL env u = .ok true)
    (hfetch : env.fetch u 0 = .response 200 (.ok doc))
    (hsel : env.select doc selector = []) :
    processURL env u selector =
      .error ("could not find content in " ++ u ++ " using selector " ++
        sq ++ selector ++ sq) ∧
    (runWorker env selector u).1.isSuccess = false ∧
    (runWorker env selector u).1.error =
      "could not find content in " ++ u ++ " using selector " ++
        sq ++ selector ++ sq ∧
    (runWorker env selector u).2 = 1 := by
  have hp : processURL env u selector =
      .error ("could not find content in " ++ u ++ " using selector " ++
        sq ++ selector ++ sq) := by
    simp only [processURL, hfetch, hsel]
    simp
  refine ⟨hp, ?_, ?_, ?_⟩ <;> (unfold runWorker; rw [hpub, hp]) <;> rfl

/-- Environment for the C6 witness: a well-formed document in which the
selector `#nonexistent` matches nothing. -/
def envC6 : Env where
  parseHost := fun _ => .ok "example.com"
  lookupIP := fun _ => .ok [IP.v4 93 184 216 34]
  fetch := fun _ _ => .response 200 (.ok c3Doc)
  select := fun _ _ => []
  yamlMarshal := fun _ => .ok ""
  writeFile := fun _ _ => .ok ()
  now := "2026-01-01T00:00:00Z"
  elapsed := "1s"
  downloadID := "job-4"

/-- C6 witness: the theorem applied at a concrete environment where the
selector matches zero elements of the fetched document. -/
theorem C6_witness :
    processURL envC6 "http://example.com/a" "#nonexistent" =
      .error ("could not find content in " ++ "http://example.com/a" ++
        " using selector " ++ sq ++ "#nonexistent" ++ sq) ∧
    (runWorker envC6 "#nonexistent" "http://example.com/a").1.isSuccess =
      false ∧
    (runWorker envC6 "#nonexistent" "http://example.com/a").1.error =
      "could not find content in " ++ "http://example.com/a" ++
        " using selector " ++ sq ++ "#nonexistent" ++ sq ∧
    (runWorker envC6 "#nonexistent" "http://example.com/a").2 = 1 :=
  C6_selector_miss envC6 "#nonexistent" "http://example.com/a" c3Doc
    rfl rfl rfl

/-! ### C7: newline and trimming lemmas -/

theorem noTripleNewline_cons (c : Char) (l : List Char) :
    noTripleNewline (c :: l) = (!tripleNl (c :: l) && noTripleNewline l) :=
  rfl

theorem noTripleNewline_tail {c : Char} {l : List Char}
    (h : noTripleNewline (c :: l) = true) : noTripleNewline l = true := by
  rw [noTripleNewline_cons, Bool.and_eq_true] at h
  exact h.2

theorem tripleNl_false_first {c : Char} (hc : c ≠ '\n') (l : List Char) :
    tripleNl (c :: l) = false := by
  match l with
  | [] => rfl
  | [_] => rfl
  | b :: d :: t => simp [tripleNl, hc]

theorem tripleNl_false_second {a c : Char} (hc : c ≠ '\n') (l : List Char) :
    tripleNl (a :: c :: l) = false := by
  match l with
  | [] => rfl
  | d :: t => simp [tripleNl, hc]

theorem tripleNl_false_third {a b c : Char} (hc : c ≠ '\n') (l : List Char) :
    tripleNl (a :: b :: c :: l) = false := by
  simp [tripleNl, hc]

theorem noTripleNewline_emit (k : Nat) :
    noTripleNewline (emitNl k) = true := by
  match k with
  | 0 => rfl
  | 1 => rfl
  | n + 2 => rfl

theorem noTripleNewline_emit_cons {k : Nat} {c : Char} {l : List Char}
    (hc : c ≠ '\n') (h : noTripleNewline l = true) :
    noTripleNewline (emitNl k ++ c :: l) = true := by
  have h1 : noTripleNewline (c :: l) = true := by
    rw [noTripleNewline_cons, tripleNl_false_first hc]
    simpa using h
  have h2 : noTripleNewline ('\n' :: c :: l) = true := by
    rw [noTripleNewline_cons, tripleNl_false_second hc]
    simpa using h1
  match k with
  | 0 => simpa [emitNl] using h1
  | 1 => simpa [emitNl] using h2
  | n + 2 =>
      show noTripleNewline ('\n' :: '\n' :: c :: l) = true
      rw [noTripleNewline_cons, tripleNl_false_third hc]
      simpa using h2

theorem noTripleNewline_collapseAux (l : List Char) :
    ∀ k, noTripleNewline (collapseAux k l) = true := by
  induction l with
  | nil => intro k; exact noTripleNewline_emit k
  | cons c t ih =>
      intro k
      by_cases hc : c = '\n'
      · rw [show collapseAux k (c :: t) = collapseAux (k + 1) t by
          simp [collapseAux, hc]]
        exact ih (k + 1)
      · rw [show collapseAux k (c :: t) = emitNl k ++ c :: collapseAux 0 t by
          simp [collapseAux, hc]]
        exact noTripleNewline_emit_cons hc (ih 0)

theorem noTripleNewline_collapse (l : List Char) :
    noTripleNewline (collapseNewlines l) = true :=
  noTripleNewline_collapseAux l 0

theorem tripleNl_append {l l' : List Char} (h : tripleNl l = true) :
    tripleNl (l ++ l') = true := by
  match l with
  | [] => exact absurd h (by simp [tripleNl])
  | [a] => exact absurd h (by simp [tripleNl])
  | [a, b] => exact absurd h (by simp [tripleNl])
  | a :: b :: c :: t => simpa [tripleNl] using h

theorem noTripleNewline_of_append_right {l₁ l₂ : List Char}
    (h : noTripleNewline (l₁ ++ l₂) = true) : noTripleNewline l₂ = true := by
  induction l₁ with
  | nil => simpa using h
  | cons c t ih => exact ih (noTripleNewline_tail (by simpa using h))

theorem noTripleNewline_of_append_left {l₁ l₂ : List Char} :
    noTripleNewline (l₁ ++ l₂) = true → noTripleNewline l₁ = true := by
  induction l₁ with
  | nil => intro _; rfl
  | cons c t ih =>
      intro hh
      rw [List.cons_append, noTripleNewline_cons, Bool.and_eq_true] at hh
      have ht : noTripleNewline t = true := ih hh.2
      rw [noTripleNewline_cons, ht, Bool.and_true]
      cases htr : tripleNl (c :: t) with
      | false => rfl
      | true =>
          have hta : tripleNl ((c :: t) ++ l₂) = true := tripleNl_append htr
          rw [List.cons_append] at hta
          rw [hta] at hh
          simpa using hh.1

theorem trimLeft_suffix_decomp (l : List Char) : ∃ d, l = d ++ trimLeft l := by
  induction l with
  | nil => exact ⟨[], rfl⟩
  | cons c t ih =>
      by_cases hc : isSpaceChar c
      · obtain ⟨d, hd⟩ := ih
        refine ⟨c :: d, ?_⟩
        rw [show trimLeft (c :: t) = trimLeft t by
          simp [trimLeft, List.dropWhile_cons, hc]]
        simpa using hd
      · refine ⟨[], ?_⟩
        rw [show trimLeft (c :: t) = c :: t by
          simp [trimLeft, List.dropWhile_cons, hc]]
        rfl

theorem trimRight_prefix_decomp (l : List Char) :
    ∃ d, l = trimRight l ++ d := by
  obtain ⟨d, hd⟩ := trimLeft_suffix_decomp l.reverse
  refine ⟨d.reverse, ?_⟩
  have h2 := congrArg List.reverse hd
  simpa [trimRight, List.reverse_append] using h2

theorem noTripleNewline_trimSpace {l : List Char}
    (h : noTripleNewline l = true) :
    noTripleNewline (trimSpace l) = true := by
  obtain ⟨d1, h1⟩ := trimLeft_suffix_decomp l
  rw [h1] at h
  have hA : noTripleNewline (trimLeft l) = true :=
    noTripleNewline_of_append_right h
  obtain ⟨d2, h2⟩ := trimRight_prefix_decomp (trimLeft l)
  rw [h2] at hA
  exact noTripleNewline_of_append_left hA

theorem trimLeft_head_not_space :
    ∀ {l t : List Char} {c : Char}, trimLeft l = c :: t →
      isSpaceChar c = false := by
  intro l
  induction l with
  | nil => intro t c h; simp [trimLeft] at h
  | cons a r ih =>
      intro t c h
      rw [trimLeft, List.dropWhile_cons] at h
      by_cases ha : isSpaceChar a
      · rw [if_pos ha] at h
        exact ih h
      · rw [if_neg ha] at h
        cases h
        simpa using ha

theorem trimLeft_idem (l : List Char) :
    trimLeft (trimLeft l) = trimLeft l := by
  match hl : trimLeft l with
  | [] => rfl
  | c :: t =>
      have hc := trimLeft_head_not_space hl
      rw [trimLeft, List.dropWhile_cons, if_neg (by simp [hc])]

theorem trimRight_idem (l : List Char) :
    trimRight (trimRight l) = trimRight l := by
  unfold trimRight
  rw [List.reverse_reverse, trimLeft_idem]

theorem trimLeft_trimSpace (l : List Char) :
    trimLeft (trimSpace l) = trimSpace l := by
  unfold trimSpace
  match hm : trimRight (trimLeft l) with
  | [] => rfl
  | c :: t =>
      obtain ⟨d, hd⟩ := trimRight_prefix_decomp (trimLeft l)
      rw [hm] at hd
      have hc : isSpaceChar c = false :=
        trimLeft_head_not_space (by simpa using hd)
      rw [trimLeft, List.dropWhile_cons, if_neg (by simp [hc])]

theorem trimSpace_idem (l : List Char) :
    trimSpace (trimSpace l) = trimSpace l := by
  show trimRight (trimLeft (trimSpace l)) = trimSpace l
  rw [trimLeft_trimSpace]
  show trimRight (trimRight (trimLeft l)) = trimSpace l
  rw [trimRight_idem]
  rfl

theorem htmlToMarkdown_noTriple (frag : List HNode) :
    noTripleNewline (htmlToMarkdown frag).data = true := by
  unfold htmlToMarkdown
  exact noTripleNewline_trimSpace (noTripleNewline_collapse _)

theorem htmlToMarkdown_trimmed (frag : List HNode) :
    trimSpaceStr (htmlToMarkdown frag) = htmlToMarkdown frag := by
  unfold htmlToMarkdown trimSpaceStr
  exact congrArg String.mk (trimSpace_idem _)

/-- Every success `Result` carries content of the frontmatter form: the
`---` fence line, the YAML text, the closing `---` fence, a blank line,
then a markdown body produced by `htmlToMarkdown`. -/
theorem runWorker_success_shape (env : Env) (selector u : String) :
    (runWorker env selector u).1.isSuccess = false ∨
    ∃ yamlStr frag,
      (runWorker env selector u).1.content =
        "---\n" ++ yamlStr ++ "---\n\n" ++ htmlToMarkdown frag := by
  unfold runWorker
  repeat' split
  all_goals dsimp only
  all_goals repeat' split
  all_goals first
    | exact Or.inl rfl
    | exact Or.inr ⟨_, _, rfl⟩

/-- C7: for every successful conversion, the written content is exactly
one `---` line, the YAML metadata text, a second `---` line, one blank
line, then the Markdown body; the body contains no run of three or more
consecutive newline characters, and its leading and trailing whitespace
is trimmed. -/
theorem C7_written_file_format (env : Env) (selector u : String)
    (hsucc : (runWorker env selector u).1.isSuccess = true) :
    ∃ yamlStr body,
      (runWorker env selector u).1.content =
        "---\n" ++ yamlStr ++ "---\n\n" ++ body ∧
      noTripleNewline body.data = true ∧
      trimSpaceStr body = body := by
  rcases runWorker_success_shape env selector u with hf | ⟨y, frag, hc⟩
  · rw [hsucc] at hf
    cases hf
  · exact ⟨y, htmlToMarkdown frag, hc, htmlToMarkdown_noTriple frag,
      htmlToMarkdown_trimmed frag⟩

/-- Environment for the C7 witness: all stages succeed. -/
def envC7 : Env where
  parseHost := fun _ => .ok "example.com"
  lookupIP := fun _ => .ok [IP.v4 93 184 216 34]
  fetch := fun _ _ => .response 200 (.ok c3Doc)
  select := fun doc _ => nodeFindP (fun t _ => t == "p") doc
  yamlMarshal := fun _ => .ok "source: http://example.com/a\n"
  writeFile := fun _ _ => .ok ()
  now := "2026-01-01T00:00:00Z"
  elapsed := "1s"
  downloadID := "job-5"

/-- C7 witness: the theorem applied at a concrete fully-successful
environment, discharging the success hypothesis by computation. -/
theorem C7_witness :
    ∃ yamlStr body,
      (runWorker envC7 "p" "http://example.com/a").1.content =
        "---\n" ++ yamlStr ++ "---\n\n" ++ body ∧
      noTripleNewline body.data = true ∧
      trimSpaceStr body = body :=
  C7_written_file_format envC7 "p" "http://example.com/a" (by decide)

/-! ### C8: the metadata contract -/

/-- Go map read `m[k]` on the string-valued metadata association
list. -/
def getVal : List (String × String) → String → Option String
  | [], _ => none
  | (k0, v0) :: rest, k => if k0 = k then some v0 else getVal rest k

theorem getVal_setKey_self (m : List (String × String)) (k v : String) :
    getVal (setKey m k v) k = some v := by
  induction m with
  | nil => simp [setKey, getVal]
  | cons p rest ih =>
      obtain ⟨k0, v0⟩ := p
      by_cases h : k0 = k
      · simp [setKey, h, getVal]
      · simp [setKey, h, getVal, ih]

theorem getVal_setKey_ne {k k0 : String} (h : k0 ≠ k) :
    ∀ (m : List (String × String)) (v : String),
      getVal (setKey m k0 v) k = getVal m k := by
  intro m
  induction m with
  | nil => intro v; simp [setKey, getVal, h]
  | cons p rest ih =>
      intro v
      obtain ⟨k1, v1⟩ := p
      by_cases h1 : k1 = k0
      · subst h1
        simp [setKey, getVal, h]
      · simp [setKey, h1, getVal, ih]

theorem getVal_foldl_setKey_ne {k k0 : String} (h : k0 ≠ k) :
    ∀ (l : List String) (m : List (String × String)),
      getVal (l.foldl (fun acc d => setKey acc k0 d) m) k = getVal m k := by
  intro l
  induction l with
  | nil => intro m; rfl
  | cons d t ih =>
      intro m
      simp only [List.foldl_cons]
      rw [ih, getVal_setKey_ne h]

theorem getVal_foldl_setKey_isSome (k0 : String) :
    ∀ (l : List String) (m : List (String × String)), l ≠ [] →
      (getVal (l.foldl (fun acc d => setKey acc k0 d) m) k0).isSome = true := by
  intro l
  induction l with
  | nil => intro m h; exact absurd rfl h
  | cons d t ih =>
      intro m _
      simp only [List.foldl_cons]
      by_cases ht : t = []
      · subst ht
        simp [getVal_setKey_self]
      · exact ih _ ht

theorem getMetadata_source (doc : HNode) (url : String) :
    getVal (getMetadata doc url) "source" = some url := by
  simp only [getMetadata]
  rw [getVal_foldl_setKey_ne (by decide), getVal_foldl_setKey_ne (by decide)]
  by_cases h : String.mk (trimSpace (titleTextChars doc)) ≠ ""
  · rw [if_pos h, getVal_setKey_ne (by decide)]
    rfl
  · rw [if_neg h]
    rfl

theorem getMetadata_title (doc : HNode) (url : String) :
    (getVal (getMetadata doc url) "title").isSome = true ↔
      trimSpace (titleTextChars doc) ≠ [] := by
  have hmk : (String.mk (trimSpace (titleTextChars doc)) ≠ "") ↔
      trimSpace (titleTextChars doc) ≠ [] := by
    constructor
    · intro h hdata
      exact h (by rw [hdata])
    · intro h hstr
      exact h (congrArg String.data hstr)
  simp only [getMetadata]
  rw [getVal_foldl_setKey_ne (by decide), getVal_foldl_setKey_ne (by decide)]
  by_cases h : String.mk (trimSpace (titleTextChars doc)) ≠ ""
  · rw [if_pos h, getVal_setKey_self]
    simpa using hmk.mp h
  · rw [if_neg h]
    have : ¬ trimSpace (titleTextChars doc) ≠ [] := fun hh => h (hmk.mpr hh)
    simp [getVal, this]

theorem getMetadata_description (doc : HNode) (url : String) :
    (getVal (getMetadata doc url) "description").isSome = true ↔
      metaContents doc "description" ≠ [] := by
  simp only [getMetadata]
  rw [getVal_foldl_setKey_ne (by decide)]
  by_cases hd : metaContents doc "description" = []
  · rw [hd]
    simp only [List.foldl_nil]
    by_cases h : String.mk (trimSpace (titleTextChars doc)) ≠ ""
    · rw [if_pos h, getVal_setKey_ne (by decide)]
      simp [getVal, hd]
    · rw [if_neg h]
      simp [getVal, hd]
  · rw [iff_true_right hd]
    exact getVal_foldl_setKey_isSome _ _ _ hd

theorem getMetadata_keywords (doc : HNode) (url : String) :
    (getVal (getMetadata doc url) "keywords").isSome = true ↔
      metaContents doc "keywords" ≠ [] := by
  simp only [getMetadata]
  by_cases hk : metaContents doc "keywords" = []
  · rw [hk]
    simp only [List.foldl_nil]
    rw [getVal_foldl_setKey_ne (by decide)]
    by_cases h : String.mk (trimSpace (titleTextChars doc)) ≠ ""
    · rw [if_pos h, getVal_setKey_ne (by decide)]
      simp [getVal, hk]
    · rw [if_neg h]
      simp [getVal, hk]
  · rw [iff_true_right hk]
    exact getVal_foldl_setKey_isSome _ _ _ hk

/-- C8: `getMetadata` is total (it is a Lean function) and always
contains `source` mapped to the URL; `title` is present exactly when
the trimmed `<title>` text is non-empty; `description` and `keywords`
are present exactly when some matching `meta` element carries a
`content` attribute; and the metadata marshalled on success always
contains `retrieved_at` (the worker's clock reading). -/
theorem C8_getMetadata_contract (doc : HNode) (url : String) (env : Env) :
    getVal (getMetadata doc url) "source" = some url ∧
    ((getVal (getMetadata doc url) "title").isSome = true ↔
      trimSpace (titleTextChars doc) ≠ []) ∧
    ((getVal (getMetadata doc url) "description").isSome = true ↔
      metaContents doc "description" ≠ []) ∧
    ((getVal (getMetadata doc url) "keywords").isSome = true ↔
      metaContents doc "keywords" ≠ []) ∧
    getVal (metadataFor env doc url) "retrieved_at" = some env.now := by
  refine ⟨getMetadata_source doc url, getMetadata_title doc url,
    getMetadata_description doc url, getMetadata_keywords doc url, ?_⟩
  unfold metadataFor
  exact getVal_setKey_self _ _ _

end DocConv
